import Mathlib

/-!
Verification of the storage-scrubber check subsystem
(`src/storage_scrubber/src/checks.rs`) against its specification.

The Rust source is shallowly embedded below.  Pure functions become Lean
functions; the HashMap/HashSet/BTreeSet containers are modelled by
association lists / sorted duplicate-free lists; async storage I/O
(listing stream, manifest download, HEAD probes) and the external parsers
(layer-name grammar, generation suffixes, index paths, serde) are supplied
as explicit function parameters collected in `ScrubEnv`.  Panics
(`assert!`, `unwrap`) are modelled by `Option`-valued results.
-/

set_option maxRecDepth 4000

/-- Strips a prefix (given as a char list) from a char list, returning the
remainder when the prefix matches.  Models Rust `str::strip_prefix`. -/
def stripPrefChars : List Char → List Char → Option (List Char)
  | [], s => some s
  | _ :: _, [] => Option.none
  | p :: ps, c :: cs => if p = c then stripPrefChars ps cs else Option.none

/-- String form of `stripPrefChars`: `stripPref p s` is `some r` iff `s = p ++ r`. -/
def stripPref (p s : String) : Option String :=
  (stripPrefChars p.toList s.toList).map fun r => ⟨r⟩

/-- Splits a char list at the last occurrence of `sep`.
Models Rust `str::rsplit_once`. -/
def rsplitOnceChars (sep : Char) : List Char → Option (List Char × List Char)
  | [] => Option.none
  | c :: rest =>
    match rsplitOnceChars sep rest with
    | some (a, b) => some (c :: a, b)
    | Option.none => if c = sep then some ([], rest) else Option.none

/-- String form of `rsplitOnceChars`. -/
def rsplitOnce (s : String) (sep : Char) : Option (String × String) :=
  (rsplitOnceChars sep s.toList).map fun r => (⟨r.1⟩, ⟨r.2⟩)

/-- Modelled from the spec: `Generation` is an opaque version tag, absent
(`none`) or a concrete number, with `none` ordered below every concrete
generation and concrete generations ordered numerically.  The Rust type
lives outside `src/` (utils crate). -/
inductive Generation where
  | none : Generation
  | valid : Nat → Generation
deriving DecidableEq

/-- Boolean order on generations: `none` is the oldest. -/
def Generation.le_b : Generation → Generation → Bool
  | .none, _ => true
  | .valid _, .none => false
  | .valid a, .valid b => a ≤ b

/-- Modelled from the spec: shard identity `(shard_number, shard_count)`;
the Rust `ShardIndex` lives outside `src/`. -/
structure ShardIndex where
  shard_number : Nat
  shard_count : Nat
deriving DecidableEq

/-- Mirrors `ShardIndex::new`. -/
def ShardIndex.new (number count : Nat) : ShardIndex := ⟨number, count⟩

/-- Modelled from the spec: a tenant-shard/timeline pair (the fields of
`TenantShardTimelineId` used by `checks.rs`, flattened). -/
structure TenantShardTimelineId where
  tenant_id : Nat
  shard_number : Nat
  shard_count : Nat
  timeline_id : Nat
deriving DecidableEq

/-- Modelled from the spec: a delta layer descriptor with a key range
`[key_start, key_end)` (keys abstracted to naturals, `Key::next` is
successor) and an LSN range `[lsn_start, lsn_end)`.  The Rust
`DeltaLayerName` lives outside `src/` (pageserver crate). -/
structure DeltaLayerName where
  key_start : Nat
  key_end : Nat
  lsn_start : Nat
  lsn_end : Nat
deriving DecidableEq

/-- Modelled from the spec: a layer descriptor is either an image layer
(key range at one LSN) or a delta layer. -/
inductive LayerName where
  | image : Nat → Nat → Nat → LayerName
  | delta : DeltaLayerName → LayerName
deriving DecidableEq

/-- Modelled from the spec: the manifest's claim about a referenced
layer's physical placement (`LayerFileMetadata`, outside `src/`). -/
structure LayerFileMetadata where
  file_size : Nat
  shard : ShardIndex
  generation : Generation
deriving DecidableEq

/-- Modelled from the spec: a raw storage listing entry, opaque except for
its key string. -/
structure ListingObject where
  key : String
deriving DecidableEq

/-- Modelled from the spec: an external branch record; only the two ids
interpolated into the inconsistency messages are kept. -/
structure BranchData where
  id : Nat
  project_id : Nat
deriving DecidableEq

/-- Modelled from the spec: the fields of the manifest (`IndexPart`,
outside `src/`) that `checks.rs` reads: schema version, the layer map,
the duplicated `disk_consistent_lsn` values, and the optional ancestor. -/
structure IndexPart where
  version : Nat
  layer_metadata : List (LayerName × LayerFileMetadata)
  disk_consistent_lsn : Nat
  duplicated_disk_consistent_lsn : Nat
  ancestor_timeline : Option Nat
deriving DecidableEq

/-- Modelled from the spec: a decimal rendering of a delta layer
(the Rust `Display` impl lives outside `src/`); any injective rendering
serves the diagnostics. -/
def describeDelta (d : DeltaLayerName) : String :=
  Nat.repr d.key_start ++ "-" ++ Nat.repr d.key_end ++ "__" ++
    Nat.repr d.lsn_start ++ "-" ++ Nat.repr d.lsn_end

/-- Joins decimal numbers with ", ", as `itertools::join` does in the
violation message. -/
def joinComma : List Nat → String
  | [] => ""
  | [x] => Nat.repr x
  | x :: xs => Nat.repr x ++ ", " ++ joinComma xs

/-- Mirrors the `format!` at `checks.rs:90-94`. -/
def violationMsg (d : DeltaLayerName) (pts : List Nat) : String :=
  "layer violates the layer map LSN split assumption: layer " ++
    describeDelta d ++ " intersects with LSN [" ++ joinComma pts ++ "]"

/-- Inserts a value into a sorted duplicate-free list, keeping it sorted
and duplicate-free.  Models `BTreeSet::insert` at `checks.rs:83-84`. -/
def insertSorted (x : Nat) : List Nat → List Nat
  | [] => [x]
  | y :: ys =>
    if x < y then x :: y :: ys
    else if x = y then y :: ys
    else y :: insertSorted x ys

/-- Mirrors `checks.rs:74-80`: the delta layers of the map whose key range
spans more than one key (`key_range.start.next() != key_range.end`). -/
def allMultiKeyDeltas (metadata : List (LayerName × LayerFileMetadata)) : List DeltaLayerName :=
  metadata.filterMap fun nm =>
    match nm.1 with
    | .delta d => if d.key_start + 1 ≠ d.key_end then some d else Option.none
    | .image _ _ _ => Option.none

/-- Mirrors `checks.rs:81-85`: the sorted set of all LSN range endpoints of
the multi-key delta layers. -/
def splitPoints (layers : List DeltaLayerName) : List Nat :=
  layers.foldl (fun s l => insertSorted l.lsn_end (insertSorted l.lsn_start s)) []

/-- Mirrors the `BTreeSet::range(lsn_range)` query at `checks.rs:88`: the
split points inside the half-open range `[lsn_start, lsn_end)`. -/
def rangePoints (pts : List Nat) (d : DeltaLayerName) : List Nat :=
  pts.filter fun p => decide (d.lsn_start ≤ p ∧ p < d.lsn_end)

/-- Mirrors the loop at `checks.rs:86-97`: returns the diagnostic for the
first layer whose LSN range contains more than one split point. -/
def findViolation (pts : List Nat) : List DeltaLayerName → Option String
  | [] => Option.none
  | l :: rest =>
    let intersects := rangePoints pts l
    if 1 < intersects.length then some (violationMsg l intersects)
    else findViolation pts rest

/-- Mirrors `check_valid_layermap` (`checks.rs:71-99`), with the layer map
given as an association list. -/
def check_valid_layermap (metadata : List (LayerName × LayerFileMetadata)) : Option String :=
  let all_delta_layers := allMultiKeyDeltas metadata
  let lsn_split_point := splitPoints all_delta_layers
  findViolation lsn_split_point all_delta_layers

/-- Looks a key up in an association list.  Models `HashMap::get`. -/
def lookupA {κ α : Type} [DecidableEq κ] : List (κ × α) → κ → Option α
  | [], _ => Option.none
  | (k, v) :: rest, k' => if k = k' then some v else lookupA rest k'

/-- Applies `f` to the value at the first occurrence of a key.  Models
`HashMap::get_mut` followed by an in-place update. -/
def updateA {κ α : Type} [DecidableEq κ] (f : α → α) : List (κ × α) → κ → List (κ × α)
  | [], _ => []
  | (k, v) :: rest, k' =>
    if k = k' then (k, f v) :: rest else (k, v) :: updateA f rest k'

/-- Inserts a binding, returning the replaced value (if any) together with
the new list.  Models `HashMap::insert`. -/
def insertA {κ α : Type} [DecidableEq κ] : List (κ × α) → κ → α → Option α × List (κ × α)
  | [], k, v => (Option.none, [(k, v)])
  | (k', v') :: rest, k, v =>
    if k' = k then (some v', (k, v) :: rest)
    else
      let r := insertA rest k v
      (r.1, (k', v') :: r.2)

/-- Mirrors `LayerRef` (`checks.rs:265-268`): a reference count, collapsed
to the bare counter. -/
abbrev LayerRef := Nat

/-- Mirrors `TenantObjectListing` (`checks.rs:272-275`): the tenant-wide
index, with the two `HashMap`s modelled as association lists. -/
structure TenantObjectListing where
  shard_timelines : List ((ShardIndex × Nat) × List ((LayerName × Generation) × LayerRef))
deriving DecidableEq

/-- Mirrors `TenantObjectListing::push` (`checks.rs:280-301`).  The
`assert!(replaced.is_none())` panic is modelled by returning `none`. -/
def TenantObjectListing.push (s : TenantObjectListing) (ttid : TenantShardTimelineId)
    (layers : List (LayerName × Generation)) : Option TenantObjectListing :=
  let shard_index := ShardIndex.new ttid.shard_number ttid.shard_count
  let r := insertA s.shard_timelines (shard_index, ttid.timeline_id)
    (layers.map fun l => (l, 0))
  if r.1.isSome then Option.none else some ⟨r.2⟩

/-- Mirrors `TenantObjectListing::check_ref` (`checks.rs:308-325`),
returning the boolean together with the updated index. -/
def TenantObjectListing.check_ref (s : TenantObjectListing) (timeline_id : Nat)
    (layer_file : LayerName) (metadata : LayerFileMetadata) : Bool × TenantObjectListing :=
  match lookupA s.shard_timelines (metadata.shard, timeline_id) with
  | Option.none => (false, s)
  | some shard_tl =>
    match lookupA shard_tl (layer_file, metadata.generation) with
    | Option.none => (false, s)
    | some _ =>
      (true,
        ⟨updateA
          (fun inner => updateA (fun rc => rc + 1) inner (layer_file, metadata.generation))
          s.shard_timelines (metadata.shard, timeline_id)⟩)

/-- Mirrors `TenantObjectListing::get_orphans` (`checks.rs:327-338`). -/
def TenantObjectListing.get_orphans (s : TenantObjectListing) :
    List (ShardIndex × Nat × LayerName × Generation) :=
  s.shard_timelines.foldl
    (fun acc p =>
      acc ++ p.2.filterMap fun q =>
        if q.2 = 0 then some (p.1.1, p.1.2, q.1.1, q.1.2) else Option.none)
    []

/-- Mirrors `RemoteTimelineBlobData`'s inner enum `BlobDataParseResult`
(`checks.rs:352-365`). -/
inductive BlobDataParseResult where
  | Parsed : IndexPart → Generation → List (LayerName × Generation) → BlobDataParseResult
  | Relic : BlobDataParseResult
  | Incorrect : List String → List (LayerName × Generation) → BlobDataParseResult
deriving DecidableEq

/-- Mirrors `RemoteTimelineBlobData` (`checks.rs:341-350`). -/
structure RemoteTimelineBlobData where
  blob_data : BlobDataParseResult
  unused_index_keys : List ListingObject
  unknown_keys : List ListingObject
deriving DecidableEq

/-- Collects the external capabilities and parsers that `checks.rs` calls
but whose code lives outside `src/`.  Modelled from the spec: the layer
descriptor grammar (`LayerName::from_str`), `Generation::parse_suffix`,
`parse_remote_index_path`, the storage download and HEAD probe, serde
parsing of the manifest, `LayerMap::is_l0`, `IndexPart::KNOWN_VERSIONS`,
and the generation suffix rendering used in messages. -/
structure ScrubEnv where
  parseLayerName : String → Except String LayerName
  parseSuffix : String → Option Generation
  parseIdx : String → Option Generation
  download : String → Except String String
  parseIndexPart : String → Except String IndexPart
  headOk : LayerName → LayerFileMetadata → Bool
  isL0 : LayerName → Bool
  knownVersions : List Nat
  genSuffix : Generation → String
  describeLayer : LayerName → String
  shardRepr : ShardIndex → String

/-- Mirrors `parse_layer_object_name` (`checks.rs:367-378`): an
8-character segment after the last `-` is treated as a generation suffix,
otherwise the whole name is parsed as a bare layer name. -/
def parse_layer_object_name (env : ScrubEnv) (name : String) :
    Except String (LayerName × Generation) :=
  match rsplitOnce name '-' with
  | some (layer_filename, g) =>
    if g.length = 8 then
      match env.parseLayerName layer_filename with
      | .error e => .error e
      | .ok layer =>
        match env.parseSuffix g with
        | Option.none => .error "Malformed generation suffix"
        | some gen => .ok (layer, gen)
    else
      match env.parseLayerName name with
      | .error e => .error e
      | .ok layer => .ok (layer, Generation.none)
  | Option.none =>
    match env.parseLayerName name with
    | .error e => .error e
    | .ok layer => .ok (layer, Generation.none)

/-- Inserts into a list modelling a `HashSet` (no duplicate is added). -/
def insertSet {α : Type} [DecidableEq α] (x : α) (s : List α) : List α :=
  if x ∈ s then s else s ++ [x]

/-- Accumulator of the listing loop of `list_timeline_blobs`
(`checks.rs:385-439`). -/
structure ScanResult where
  s3_layers : List (LayerName × Generation)
  errors : List String
  unknown_keys : List ListingObject
  index_part_keys : List ListingObject
  initdb_archive : Bool
deriving DecidableEq

/-- Mirrors the error message at `checks.rs:427-429`. -/
def notALayerMsg (key e : String) : String :=
  "S3 list response got an object with key " ++ key ++ " that is not a layer name: " ++ e

/-- Mirrors the error message at `checks.rs:435`. -/
def oddKeyMsg (key : String) : String :=
  "S3 list response got an object with odd key " ++ key

/-- Mirrors one iteration of the classification loop
(`checks.rs:402-439`). -/
def scanStep (env : ScrubEnv) (prefixStr : String) (sc : ScanResult)
    (obj : ListingObject) : ScanResult :=
  match stripPref prefixStr obj.key with
  | some name =>
    if (stripPref "index_part.json" name).isSome then
      { sc with index_part_keys := sc.index_part_keys ++ [obj] }
    else if name = "initdb.tar.zst" then
      { sc with initdb_archive := true }
    else if name = "initdb-preserved.tar.zst" then
      sc
    else
      match parse_layer_object_name env name with
      | .ok lg => { sc with s3_layers := insertSet lg sc.s3_layers }
      | .error e =>
        { sc with
            errors := sc.errors ++ [notALayerMsg obj.key e],
            unknown_keys := sc.unknown_keys ++ [obj] }
  | Option.none =>
    { sc with
        errors := sc.errors ++ [oddKeyMsg obj.key],
        unknown_keys := sc.unknown_keys ++ [obj] }

/-- Runs the classification loop over the whole listing. -/
def scanListing (env : ScrubEnv) (prefixStr : String) (objs : List ListingObject) : ScanResult :=
  objs.foldl (scanStep env prefixStr) ⟨[], [], [], [], false⟩

/-- Mirrors `checks.rs:396-399`: the prefix with a leading slash removed
when present. -/
def effPrefixStr (prefix_in_bucket : String) : String :=
  (stripPref "/" prefix_in_bucket).getD prefix_in_bucket

/-- Manifest candidates paired with their parsed generations
(the `filter_map` at `checks.rs:454-461`); the source unwraps the
`rsplit_once('/')` — listing keys always contain a slash. -/
def parsedCandidates (parseIdx : String → Option Generation) (keys : List ListingObject) :
    List (ListingObject × Generation) :=
  keys.filterMap fun k =>
    match rsplitOnce k.key '/' with
    | some b => (parseIdx b.2).map fun g => (k, g)
    | Option.none => Option.none

/-- Single comparison step of `Iterator::max_by_key`: a later element
displaces the current maximum when its generation is at least as large. -/
def maxStep (acc : Option (ListingObject × Generation)) (x : ListingObject × Generation) :
    Option (ListingObject × Generation) :=
  match acc with
  | Option.none => some x
  | some y => if Generation.le_b y.2 x.2 then some x else some y

/-- Mirrors `Iterator::max_by_key` (`checks.rs:462`): the last element
attaining the maximal generation. -/
def maxByGen (l : List (ListingObject × Generation)) : Option (ListingObject × Generation) :=
  l.foldl maxStep Option.none

/-- Mirrors the manifest selection at `checks.rs:452-470`: the candidate
with the maximal parsed generation, else `Vec::pop` of the remaining
candidates with `Generation::none()`.  Returns the selection together
with the candidate list left after the possible `pop`. -/
def selectIndexPart (parseIdx : String → Option Generation) (keys : List ListingObject) :
    Option (ListingObject × Generation) × List ListingObject :=
  match maxByGen (parsedCandidates parseIdx keys) with
  | some kg => (some kg, keys)
  | Option.none =>
    match keys.getLast? with
    | some k => (some (k, Generation.none), keys.dropLast)
    | Option.none => (Option.none, keys)

/-- Mirrors the error message at `checks.rs:475`. -/
def noIndexMsg : String := "S3 list response got no index_part.json file"

/-- Mirrors the error message at `checks.rs:497-499`. -/
def indexBodyParseMsg (e : String) : String :=
  "index_part.json body parsing error: " ++ e

/-- Mirrors the defensive diagnostic at `checks.rs:503-507`. -/
def unexpectedMsg : String :=
  "Unexpected: no errors did not lead to a successfully parsed blob return"

/-- Mirrors the terminal fallthrough of `list_timeline_blobs`
(`checks.rs:503-513`): appends the defensive diagnostic when the error
list is empty and returns the `Incorrect` result. -/
def mkIncorrect (errors : List String) (sc : ScanResult) (unused : List ListingObject) :
    Except String RemoteTimelineBlobData :=
  let errors := if errors = [] then [unexpectedMsg] else errors
  .ok ⟨.Incorrect errors sc.s3_layers, unused, sc.unknown_keys⟩

/-- Mirrors `checks.rs:452-513`: manifest selection, the retain / missing-
manifest error, download + parse of the selected manifest, and the
fallthrough.  A download failure is the fatal `anyhow` return. -/
def afterScan (env : ScrubEnv) (sc : ScanResult) : Except String RemoteTimelineBlobData :=
  match selectIndexPart env.parseIdx sc.index_part_keys with
  | (some sel, remaining) =>
    let unused := remaining.filter fun k => decide (k ≠ sel.1)
    match env.download sel.1.key with
    | .error e => .error ("index_part.json download: " ++ e)
    | .ok bytes =>
      match env.parseIndexPart bytes with
      | .ok index_part =>
        .ok ⟨.Parsed index_part sel.2 sc.s3_layers, unused, sc.unknown_keys⟩
      | .error pe => mkIncorrect (sc.errors ++ [indexBodyParseMsg pe]) sc unused
  | (Option.none, remaining) =>
    mkIncorrect (sc.errors ++ [noIndexMsg]) sc remaining

/-- Mirrors `list_timeline_blobs` (`checks.rs:380-513`), with the listing
supplied as the already-streamed list of objects. -/
def list_timeline_blobs (env : ScrubEnv) (prefix_in_bucket : String)
    (objs : List ListingObject) : Except String RemoteTimelineBlobData :=
  let prefixStr := effPrefixStr prefix_in_bucket
  let sc := scanListing env prefixStr objs
  if sc.index_part_keys.isEmpty && sc.s3_layers.isEmpty && sc.initdb_archive then
    .ok ⟨.Relic, sc.index_part_keys, []⟩
  else
    afterScan env sc

/-- Mirrors `TimelineAnalysis` (`checks.rs:22-34`). -/
structure TimelineAnalysis where
  errors : List String
  warnings : List String
  garbage_keys : List String
deriving DecidableEq

/-- Mirrors `TimelineAnalysis::new` (`checks.rs:37-43`). -/
def TimelineAnalysis.new : TimelineAnalysis := ⟨[], [], []⟩

/-- Mirrors `TimelineAnalysis::is_healthy` (`checks.rs:46-48`). -/
def TimelineAnalysis.is_healthy (a : TimelineAnalysis) : Bool :=
  a.errors.isEmpty && a.warnings.isEmpty

/-- Mirrors the branch-inconsistency messages at `checks.rs:118-126`:
the console lookup found the branch when it was expected deleted
(`some`), or found nothing (`none`). -/
def branchInconsistencyMsg (b : BranchData) (console_branch : Option BranchData) : String :=
  match console_branch with
  | some _ =>
    "Timeline has deleted branch data in the console (id = " ++ Nat.repr b.id ++
      ", project_id = " ++ Nat.repr b.project_id ++
      "), recheck whether it got removed during the check"
  | Option.none =>
    "Timeline has no branch data in the console (id = " ++ Nat.repr b.id ++
      ", project_id = " ++ Nat.repr b.project_id ++
      "), recheck whether it got removed during the check"

/-- Mirrors the message at `checks.rs:142-144`. -/
def badVersionMsg (v : Nat) : String := "index_part.json version: " ++ Nat.repr v

/-- Mirrors the message at `checks.rs:160-164`. -/
def lsnMismatchMsg (a b : Nat) : String :=
  "Mismatching disk_consistent_lsn in TimelineMetadata (" ++ Nat.repr a ++
    ") and in the index_part (" ++ Nat.repr b ++ ")"

/-- Mirrors the message at `checks.rs:170-173`. -/
def noLayersMsg : String := "index_part.json has no layers (ancestor_timeline=None)"

/-- Mirrors the message at `checks.rs:181-183`. -/
def invalidLayermapMsg (err : String) : String :=
  "index_part.json contains invalid layer map structure: " ++ err

/-- Mirrors the message at `checks.rs:188-190`. -/
def zeroSizeMsg (env : ScrubEnv) (layer : LayerName) : String :=
  "index_part.json contains a layer " ++ env.describeLayer layer ++
    " that has 0 size in its layer metadata"

/-- Mirrors the message at `checks.rs:212-218`. -/
def missingLayerMsg (env : ScrubEnv) (layer : LayerName) (metadata : LayerFileMetadata)
    (is_l0 : Bool) : String :=
  "index_part.json contains a layer " ++ env.describeLayer layer ++
    env.genSuffix metadata.generation ++ " (shard " ++ env.shardRepr metadata.shard ++
    ") that is not present in remote storage (layer_is_l0: " ++
    (if is_l0 then "true" else "false") ++ ")"

/-- Mirrors the message at `checks.rs:240-242`. -/
def noDataMsg : String := "Timeline has no data on S3 at all"

/-- Mirrors one iteration of the per-layer loop at `checks.rs:186-227`:
the zero-size check, the `check_ref` cross-check, and on a miss the HEAD
probe with the L0 warning demotion. -/
def checkLayerStep (env : ScrubEnv) (id : TenantShardTimelineId)
    (acc : TimelineAnalysis × TenantObjectListing)
    (lm : LayerName × LayerFileMetadata) : TimelineAnalysis × TenantObjectListing :=
  let (result, tenant_objects) := acc
  let (layer, metadata) := lm
  let result :=
    if metadata.file_size = 0 then
      { result with errors := result.errors ++ [zeroSizeMsg env layer] }
    else result
  let cr := tenant_objects.check_ref id.timeline_id layer metadata
  if cr.1 then (result, cr.2)
  else if env.headOk layer metadata then (result, cr.2)
  else
    let is_l0 := env.isL0 layer
    let msg := missingLayerMsg env layer metadata is_l0
    if is_l0 then ({ result with warnings := result.warnings ++ [msg] }, cr.2)
    else ({ result with errors := result.errors ++ [msg] }, cr.2)

/-- Mirrors `checks.rs:129-243`: the handling of the reconciliation
result — garbage-key surfacing, the `Parsed` checks and per-layer loop,
`Relic`, `Incorrect`, and the no-data case. -/
def analyzeS3Data (env : ScrubEnv) (id : TenantShardTimelineId)
    (tenant_objects : TenantObjectListing) (result : TimelineAnalysis) :
    Option RemoteTimelineBlobData → TimelineAnalysis × TenantObjectListing
  | some s3_data =>
    let result :=
      { result with
          garbage_keys := result.garbage_keys ++ s3_data.unknown_keys.map fun k => k.key }
    match s3_data.blob_data with
    | .Parsed index_part _gen _s3_layers =>
      let result :=
        if ¬ env.knownVersions.contains index_part.version then
          { result with errors := result.errors ++ [badVersionMsg index_part.version] }
        else result
      -- checks.rs:147-153 only logs when the version is not among the
      -- newest three known versions: no effect on the verdict.
      let result :=
        if index_part.disk_consistent_lsn ≠ index_part.duplicated_disk_consistent_lsn then
          { result with
              errors := result.errors ++
                [lsnMismatchMsg index_part.disk_consistent_lsn
                  index_part.duplicated_disk_consistent_lsn] }
        else result
      let result :=
        if index_part.layer_metadata = [] then
          if index_part.ancestor_timeline = Option.none then
            { result with errors := result.errors ++ [noLayersMsg] }
          else result
        else result
      let result :=
        match check_valid_layermap index_part.layer_metadata with
        | some err => { result with errors := result.errors ++ [invalidLayermapMsg err] }
        | Option.none => result
      index_part.layer_metadata.foldl (checkLayerStep env id) (result, tenant_objects)
    | .Relic => (result, tenant_objects)
    | .Incorrect errors _s3_layers =>
      ({ result with errors := result.errors ++ errors.map fun e => "parse error: " ++ e },
        tenant_objects)
  | Option.none =>
    ({ result with errors := result.errors ++ [noDataMsg] }, tenant_objects)

/-- Mirrors `branch_cleanup_and_check_errors` (`checks.rs:101-263`); the
`&mut TenantObjectListing` is passed and returned explicitly, logging is
dropped. -/
def branch_cleanup_and_check_errors (env : ScrubEnv) (id : TenantShardTimelineId)
    (tenant_objects : TenantObjectListing) (s3_active_branch : Option BranchData)
    (console_branch : Option BranchData) (s3_data : Option RemoteTimelineBlobData) :
    TimelineAnalysis × TenantObjectListing :=
  let result := TimelineAnalysis.new
  let result :=
    match s3_active_branch with
    | some b =>
      { result with errors := result.errors ++ [branchInconsistencyMsg b console_branch] }
    | Option.none => result
  analyzeS3Data env id tenant_objects result s3_data

lemma mem_insertSorted {x a : Nat} : ∀ {s : List Nat}, a ∈ insertSorted x s ↔ a = x ∨ a ∈ s := by
  intro s
  induction s with
  | nil => simp [insertSorted]
  | cons y ys ih =>
    simp only [insertSorted]
    by_cases h1 : x < y
    · rw [if_pos h1]
      simp only [List.mem_cons]
    · by_cases h2 : x = y
      · rw [if_neg h1, if_pos h2]
        subst h2
        simp only [List.mem_cons]
        tauto
      · rw [if_neg h1, if_neg h2]
        simp only [List.mem_cons, ih]
        tauto

lemma sorted_insertSorted {x : Nat} :
    ∀ {s : List Nat}, s.Sorted (· < ·) → (insertSorted x s).Sorted (· < ·) := by
  intro s
  induction s with
  | nil => intro _; simp [insertSorted]
  | cons y ys ih =>
    intro hs
    rw [List.sorted_cons] at hs
    obtain ⟨hy, hys⟩ := hs
    simp only [insertSorted]
    by_cases h1 : x < y
    · rw [if_pos h1, List.sorted_cons]
      refine ⟨?_, List.sorted_cons.mpr ⟨hy, hys⟩⟩
      intro b hb
      rcases List.mem_cons.mp hb with rfl | hb
      · exact h1
      · exact h1.trans (hy b hb)
    · by_cases h2 : x = y
      · rw [if_neg h1, if_pos h2, List.sorted_cons]
        exact ⟨hy, hys⟩
      · rw [if_neg h1, if_neg h2, List.sorted_cons]
        have hyx : y < x := by omega
        refine ⟨?_, ih hys⟩
        intro b hb
        rcases mem_insertSorted.mp hb with rfl | hb
        · exact hyx
        · exact hy b hb

lemma sorted_splitPoints_aux :
    ∀ (ls : List DeltaLayerName) (acc : List Nat), acc.Sorted (· < ·) →
      (ls.foldl (fun s l => insertSorted l.lsn_end (insertSorted l.lsn_start s)) acc).Sorted
        (· < ·) := by
  intro ls
  induction ls with
  | nil => intro acc h; simpa using h
  | cons l ls ih =>
    intro acc h
    simp only [List.foldl_cons]
    exact ih _ (sorted_insertSorted (sorted_insertSorted h))

lemma sorted_splitPoints (ls : List DeltaLayerName) : (splitPoints ls).Sorted (· < ·) :=
  sorted_splitPoints_aux ls [] (by simp)

lemma nodup_splitPoints (ls : List DeltaLayerName) : (splitPoints ls).Nodup :=
  (sorted_splitPoints ls).imp fun h => Nat.ne_of_lt h

lemma mem_splitPoints_aux :
    ∀ (ls : List DeltaLayerName) (acc : List Nat) (p : Nat),
      p ∈ ls.foldl (fun s l => insertSorted l.lsn_end (insertSorted l.lsn_start s)) acc ↔
        p ∈ acc ∨ ∃ l ∈ ls, p = l.lsn_start ∨ p = l.lsn_end := by
  intro ls
  induction ls with
  | nil => simp
  | cons l ls ih =>
    intro acc p
    simp only [List.foldl_cons]
    rw [ih]
    constructor
    · rintro (hin | ⟨l', hl', hp⟩)
      · rcases mem_insertSorted.mp hin with rfl | hin2
        · exact Or.inr ⟨l, List.mem_cons_self l ls, Or.inr rfl⟩
        · rcases mem_insertSorted.mp hin2 with rfl | hacc
          · exact Or.inr ⟨l, List.mem_cons_self l ls, Or.inl rfl⟩
          · exact Or.inl hacc
      · exact Or.inr ⟨l', List.mem_cons_of_mem _ hl', hp⟩
    · rintro (hacc | ⟨l', hl', hp⟩)
      · exact Or.inl (mem_insertSorted.mpr (Or.inr (mem_insertSorted.mpr (Or.inr hacc))))
      · rcases List.mem_cons.mp hl' with rfl | hl''
        · rcases hp with rfl | rfl
          · exact Or.inl (mem_insertSorted.mpr (Or.inr (mem_insertSorted.mpr (Or.inl rfl))))
          · exact Or.inl (mem_insertSorted.mpr (Or.inl rfl))
        · exact Or.inr ⟨l', hl'', hp⟩

lemma mem_splitPoints {ls : List DeltaLayerName} {p : Nat} :
    p ∈ splitPoints ls ↔ ∃ l ∈ ls, p = l.lsn_start ∨ p = l.lsn_end := by
  unfold splitPoints
  rw [mem_splitPoints_aux]
  simp

lemma findViolation_eq_none {pts : List Nat} :
    ∀ {ls : List DeltaLayerName},
      findViolation pts ls = Option.none ↔ ∀ l ∈ ls, (rangePoints pts l).length ≤ 1 := by
  intro ls
  induction ls with
  | nil => simp [findViolation]
  | cons l ls ih =>
    simp only [findViolation]
    by_cases h : 1 < (rangePoints pts l).length
    · rw [if_pos h]
      constructor
      · intro hc; exact absurd hc (by simp)
      · intro hall
        exact absurd h (Nat.not_lt.mpr (hall l (List.mem_cons_self l ls)))
    · rw [if_neg h, ih]
      constructor
      · intro hall l' hl'
        rcases List.mem_cons.mp hl' with rfl | hl'
        · exact Nat.not_lt.mp h
        · exact hall l' hl'
      · intro hall l' hl'
        exact hall l' (List.mem_cons_of_mem _ hl')

lemma findViolation_eq_some {pts : List Nat} :
    ∀ {ls : List DeltaLayerName} {msg : String},
      findViolation pts ls = some msg →
        ∃ l ∈ ls, 1 < (rangePoints pts l).length ∧ msg = violationMsg l (rangePoints pts l) := by
  intro ls
  induction ls with
  | nil => intro msg h; simp [findViolation] at h
  | cons l ls ih =>
    intro msg h
    simp only [findViolation] at h
    by_cases hl : 1 < (rangePoints pts l).length
    · rw [if_pos hl] at h
      exact ⟨l, List.mem_cons_self l ls, hl, (Option.some_inj.mp h).symm⟩
    · rw [if_neg hl] at h
      obtain ⟨l', hl', hlen, hmsg⟩ := ih h
      exact ⟨l', List.mem_cons_of_mem _ hl', hlen, hmsg⟩

lemma findViolation_isSome {pts : List Nat} {ls : List DeltaLayerName} :
    (findViolation pts ls).isSome ↔ ∃ l ∈ ls, 1 < (rangePoints pts l).length := by
  constructor
  · intro hs
    obtain ⟨msg, hmsg⟩ := Option.isSome_iff_exists.mp hs
    obtain ⟨l, hl, hlen, _⟩ := findViolation_eq_some hmsg
    exact ⟨l, hl, hlen⟩
  · rintro ⟨l, hl, hlen⟩
    cases h : findViolation pts ls with
    | some _ => simp
    | none =>
      exact absurd hlen (Nat.not_lt.mpr (findViolation_eq_none.mp h l hl))

lemma length_le_one_of_all_eq {l : List Nat} {a : Nat} (hnd : l.Nodup)
    (hall : ∀ x ∈ l, x = a) : l.length ≤ 1 := by
  match l with
  | [] => simp
  | [_] => simp
  | x :: y :: t =>
    exfalso
    have hx := hall x (by simp)
    have hy := hall y (by simp)
    rw [List.nodup_cons] at hnd
    have hxy : x = y := hx.trans hy.symm
    exact hnd.1 (hxy ▸ List.mem_cons_self y t)

/-- C3: `check_valid_layermap` reports a violation exactly when some
multi-key delta layer's half-open LSN range `[lsn_start, lsn_end)`
contains more than one split-point endpoint; any reported diagnostic names
such a layer and its offending endpoints; and on the concrete three-layer
map with LSN ranges `[0,100)`, `[0,40)`, `[40,100)` over key range
`[0,10)` the validator names the `[0,100)` layer, whose range contains
the two split points `0` and `40`. -/
theorem spec_c3 :
    (∀ m : List (LayerName × LayerFileMetadata),
        (check_valid_layermap m).isSome ↔
          ∃ d ∈ allMultiKeyDeltas m,
            1 < (rangePoints (splitPoints (allMultiKeyDeltas m)) d).length) ∧
    (∀ (m : List (LayerName × LayerFileMetadata)) (msg : String),
        check_valid_layermap m = some msg →
          ∃ d ∈ allMultiKeyDeltas m,
            1 < (rangePoints (splitPoints (allMultiKeyDeltas m)) d).length ∧
              msg = violationMsg d (rangePoints (splitPoints (allMultiKeyDeltas m)) d)) ∧
    check_valid_layermap
        [(LayerName.delta ⟨0, 10, 0, 100⟩, ⟨1, ⟨0, 1⟩, Generation.none⟩),
         (LayerName.delta ⟨0, 10, 0, 40⟩, ⟨1, ⟨0, 1⟩, Generation.none⟩),
         (LayerName.delta ⟨0, 10, 40, 100⟩, ⟨1, ⟨0, 1⟩, Generation.none⟩)] =
      some (violationMsg ⟨0, 10, 0, 100⟩ [0, 40]) := by
  refine ⟨?_, ?_, by decide⟩
  · intro m
    unfold check_valid_layermap
    exact findViolation_isSome
  · intro m msg h
    unfold check_valid_layermap at h
    exact findViolation_eq_some h

/-- C3 witness: the general naming clause of `spec_c3` instantiated at the
concrete three-layer map. -/
theorem spec_c3_witness :
    ∃ d ∈ allMultiKeyDeltas
        [(LayerName.delta ⟨0, 10, 0, 100⟩, ⟨1, ⟨0, 1⟩, Generation.none⟩),
         (LayerName.delta ⟨0, 10, 0, 40⟩, ⟨1, ⟨0, 1⟩, Generation.none⟩),
         (LayerName.delta ⟨0, 10, 40, 100⟩, ⟨1, ⟨0, 1⟩, Generation.none⟩)],
      1 < (rangePoints (splitPoints (allMultiKeyDeltas
        [(LayerName.delta ⟨0, 10, 0, 100⟩, ⟨1, ⟨0, 1⟩, Generation.none⟩),
         (LayerName.delta ⟨0, 10, 0, 40⟩, ⟨1, ⟨0, 1⟩, Generation.none⟩),
         (LayerName.delta ⟨0, 10, 40, 100⟩, ⟨1, ⟨0, 1⟩, Generation.none⟩)])) d).length ∧
      violationMsg ⟨0, 10, 0, 100⟩ [0, 40] =
        violationMsg d (rangePoints (splitPoints (allMultiKeyDeltas
          [(LayerName.delta ⟨0, 10, 0, 100⟩, ⟨1, ⟨0, 1⟩, Generation.none⟩),
           (LayerName.delta ⟨0, 10, 0, 40⟩, ⟨1, ⟨0, 1⟩, Generation.none⟩),
           (LayerName.delta ⟨0, 10, 40, 100⟩, ⟨1, ⟨0, 1⟩, Generation.none⟩)])) d) :=
  spec_c3.2.1
    [(LayerName.delta ⟨0, 10, 0, 100⟩, ⟨1, ⟨0, 1⟩, Generation.none⟩),
     (LayerName.delta ⟨0, 10, 0, 40⟩, ⟨1, ⟨0, 1⟩, Generation.none⟩),
     (LayerName.delta ⟨0, 10, 40, 100⟩, ⟨1, ⟨0, 1⟩, Generation.none⟩)]
    (violationMsg ⟨0, 10, 0, 100⟩ [0, 40]) (by decide)

/-- C6: a layer map whose multi-key delta layers have nonempty LSN ranges
that are pairwise disjoint or exactly touching (one layer's `lsn_end`
equal to another's `lsn_start`) always passes validation. -/
theorem spec_c6 (m : List (LayerName × LayerFileMetadata))
    (hwf : ∀ d ∈ allMultiKeyDeltas m, d.lsn_start < d.lsn_end)
    (hp : List.Pairwise
      (fun a b : DeltaLayerName => a.lsn_end ≤ b.lsn_start ∨ b.lsn_end ≤ a.lsn_start)
      (allMultiKeyDeltas m)) :
    check_valid_layermap m = Option.none := by
  unfold check_valid_layermap
  apply findViolation_eq_none.mpr
  intro d hd
  have hnd : (rangePoints (splitPoints (allMultiKeyDeltas m)) d).Nodup := by
    unfold rangePoints
    exact (nodup_splitPoints _).filter _
  apply length_le_one_of_all_eq (a := d.lsn_start) hnd
  intro p hp'
  unfold rangePoints at hp'
  obtain ⟨hpts, hpred⟩ := List.mem_filter.mp hp'
  have hrange : d.lsn_start ≤ p ∧ p < d.lsn_end := of_decide_eq_true hpred
  obtain ⟨l, hl, hpl⟩ := mem_splitPoints.mp hpts
  by_cases hld : l = d
  · subst hld
    rcases hpl with rfl | rfl <;> omega
  · have hsymm : Symmetric
        (fun a b : DeltaLayerName => a.lsn_end ≤ b.lsn_start ∨ b.lsn_end ≤ a.lsn_start) :=
      fun _ _ h => h.symm
    have hR := hp.forall hsymm hl hd hld
    have hw1 := hwf d hd
    have hw2 := hwf l hl
    rcases hR with h1 | h2 <;> rcases hpl with rfl | rfl <;> omega

/-- C6 witness: two touching multi-key delta layers with LSN ranges
`[0,10)` and `[10,20)` validate. -/
theorem spec_c6_witness :
    check_valid_layermap
        [(LayerName.delta ⟨0, 10, 0, 10⟩, ⟨1, ⟨0, 1⟩, Generation.none⟩),
         (LayerName.delta ⟨0, 10, 10, 20⟩, ⟨1, ⟨0, 1⟩, Generation.none⟩)] = Option.none :=
  spec_c6 _ (by decide) (by decide)

/-- C7: a single-key delta layer (`key_range.start.next() = key_range.end`)
contributes no endpoint to the split-point set and never changes the
validator's verdict; in particular adding one to a valid layer map leaves
the verdict `None`. -/
theorem spec_c7 (m : List (LayerName × LayerFileMetadata)) (d : DeltaLayerName)
    (md : LayerFileMetadata) (h : d.key_start + 1 = d.key_end) :
    allMultiKeyDeltas ((LayerName.delta d, md) :: m) = allMultiKeyDeltas m ∧
    check_valid_layermap ((LayerName.delta d, md) :: m) = check_valid_layermap m ∧
    (check_valid_layermap m = Option.none →
      check_valid_layermap ((LayerName.delta d, md) :: m) = Option.none) := by
  have hmk : allMultiKeyDeltas ((LayerName.delta d, md) :: m) = allMultiKeyDeltas m := by
    unfold allMultiKeyDeltas
    simp [List.filterMap_cons, h]
  refine ⟨hmk, ?_, ?_⟩
  · unfold check_valid_layermap
    rw [hmk]
  · intro hnone
    unfold check_valid_layermap
    rw [hmk]
    exact hnone

/-- C7 witness: adding the single-key delta layer with key range `[5,6)`
and LSN range `[0,100)` to a valid two-layer map keeps the verdict. -/
theorem spec_c7_witness :
    check_valid_layermap
        ((LayerName.delta ⟨5, 6, 0, 100⟩, ⟨1, ⟨0, 1⟩, Generation.none⟩) ::
          [(LayerName.delta ⟨0, 10, 0, 10⟩, ⟨1, ⟨0, 1⟩, Generation.none⟩),
           (LayerName.delta ⟨0, 10, 10, 20⟩, ⟨1, ⟨0, 1⟩, Generation.none⟩)]) = Option.none :=
  (spec_c7 _ ⟨5, 6, 0, 100⟩ ⟨1, ⟨0, 1⟩, Generation.none⟩ (by decide)).2.2 (by decide)

lemma lookupA_insertA {κ α : Type} [DecidableEq κ] :
    ∀ (m : List (κ × α)) (k : κ) (v : α), lookupA (insertA m k v).2 k = some v := by
  intro m
  induction m with
  | nil => intro k v; simp [insertA, lookupA]
  | cons p rest ih =>
    intro k v
    simp only [insertA]
    by_cases h : p.1 = k
    · rw [if_pos h]
      simp [lookupA]
    · rw [if_neg h]
      simp only [lookupA]
      rw [if_neg h]
      exact ih k v

lemma insertA_fst_of_lookup {κ α : Type} [DecidableEq κ] :
    ∀ (m : List (κ × α)) (k : κ) (v w : α), lookupA m k = some w → (insertA m k v).1 = some w := by
  intro m
  induction m with
  | nil => intro k v w h; simp [lookupA] at h
  | cons p rest ih =>
    intro k v w h
    simp only [lookupA] at h
    simp only [insertA]
    by_cases hp : p.1 = k
    · rw [if_pos hp] at h ⊢
      simpa using h
    · rw [if_neg hp] at h ⊢
      exact ih k v w h

/-- C9: a second `push` for the same shard-timeline key always hits the
`assert!(replaced.is_none())` (modelled as `none`), for every starting
index and every pair of layer sets — the earlier listing is neither merged
with nor replaced by the second. -/
theorem spec_c9 (s : TenantObjectListing) (ttid : TenantShardTimelineId)
    (ls1 ls2 : List (LayerName × Generation)) (s1 : TenantObjectListing)
    (h : s.push ttid ls1 = some s1) : s1.push ttid ls2 = Option.none := by
  unfold TenantObjectListing.push at h ⊢
  by_cases hrep :
      (insertA s.shard_timelines (ShardIndex.new ttid.shard_number ttid.shard_count,
        ttid.timeline_id) (ls1.map fun l => (l, 0))).1.isSome
  · rw [if_pos hrep] at h
    exact absurd h (by simp)
  · rw [if_neg hrep] at h
    have hs1 : (⟨(insertA s.shard_timelines (ShardIndex.new ttid.shard_number
        ttid.shard_count, ttid.timeline_id) (ls1.map fun l => (l, 0))).2⟩ :
        TenantObjectListing) = s1 := Option.some_inj.mp h
    have hk := lookupA_insertA s.shard_timelines
      (ShardIndex.new ttid.shard_number ttid.shard_count, ttid.timeline_id)
      (ls1.map fun l => (l, 0))
    have hfst := insertA_fst_of_lookup
      (insertA s.shard_timelines (ShardIndex.new ttid.shard_number ttid.shard_count,
        ttid.timeline_id) (ls1.map fun l => (l, 0))).2
      (ShardIndex.new ttid.shard_number ttid.shard_count, ttid.timeline_id)
      (ls2.map fun l => (l, 0)) (ls1.map fun l => (l, 0)) hk
    rw [← hs1]
    simp [hfst]

/-- C9 witness: pushing the same shard-timeline twice from the empty index
is rejected. -/
theorem spec_c9_witness :
    TenantObjectListing.push
        ⟨[((⟨0, 1⟩, 7), [((LayerName.image 0 1 0, Generation.none), 0)])]⟩
        ⟨0, 0, 1, 7⟩ [(LayerName.image 0 1 0, Generation.none)] = Option.none :=
  spec_c9 ⟨[]⟩ ⟨0, 0, 1, 7⟩ [(LayerName.image 0 1 0, Generation.none)]
    [(LayerName.image 0 1 0, Generation.none)]
    ⟨[((⟨0, 1⟩, 7), [((LayerName.image 0 1 0, Generation.none), 0)])]⟩ (by decide)

/-- C5: after pushing the listing `{L1, L2}` for a shard-timeline,
marking `L1` referenced twice (with metadata carrying that shard and
`L1`'s generation) succeeds both times and leaves exactly the `L2` entry
as an orphan; and `check_ref` for a never-pushed shard-timeline, or for a
`(descriptor, generation)` absent from the pushed listing, returns
`false` and leaves the index unchanged. -/
theorem spec_c5 :
    (∀ (ttid : TenantShardTimelineId) (l1 l2 : LayerName) (g1 g2 : Generation) (fs : Nat)
        (s1 : TenantObjectListing),
      (l1, g1) ≠ (l2, g2) →
      TenantObjectListing.push ⟨[]⟩ ttid [(l1, g1), (l2, g2)] = some s1 →
      (s1.check_ref ttid.timeline_id l1
          ⟨fs, ShardIndex.new ttid.shard_number ttid.shard_count, g1⟩).1 = true ∧
      ((s1.check_ref ttid.timeline_id l1
          ⟨fs, ShardIndex.new ttid.shard_number ttid.shard_count, g1⟩).2.check_ref
            ttid.timeline_id l1
            ⟨fs, ShardIndex.new ttid.shard_number ttid.shard_count, g1⟩).1 = true ∧
      ((s1.check_ref ttid.timeline_id l1
          ⟨fs, ShardIndex.new ttid.shard_number ttid.shard_count, g1⟩).2.check_ref
            ttid.timeline_id l1
            ⟨fs, ShardIndex.new ttid.shard_number ttid.shard_count, g1⟩).2.get_orphans =
        [(ShardIndex.new ttid.shard_number ttid.shard_count, ttid.timeline_id, l2, g2)]) ∧
    (∀ (s : TenantObjectListing) (tid : Nat) (lf : LayerName) (md : LayerFileMetadata),
      lookupA s.shard_timelines (md.shard, tid) = Option.none →
      s.check_ref tid lf md = (false, s)) ∧
    (∀ (s : TenantObjectListing) (tid : Nat) (lf : LayerName) (md : LayerFileMetadata)
        (inner : List ((LayerName × Generation) × LayerRef)),
      lookupA s.shard_timelines (md.shard, tid) = some inner →
      lookupA inner (lf, md.generation) = Option.none →
      s.check_ref tid lf md = (false, s)) := by
  refine ⟨?_, ?_, ?_⟩
  · intro ttid l1 l2 g1 g2 fs s1 hne hpush
    unfold TenantObjectListing.push at hpush
    simp only [insertA, List.map_cons, List.map_nil] at hpush
    rw [if_neg (by simp)] at hpush
    have hs1 := Option.some_inj.mp hpush
    subst hs1
    unfold TenantObjectListing.check_ref TenantObjectListing.get_orphans
    simp [lookupA, updateA, Ne.symm hne]
  · intro s tid lf md h
    unfold TenantObjectListing.check_ref
    rw [h]
  · intro s tid lf md inner h1 h2
    unfold TenantObjectListing.check_ref
    simp only [h1, h2]

/-- C5 witness: the reference-counting scenario at a concrete
shard-timeline with two image layers. -/
theorem spec_c5_witness :
    ((TenantObjectListing.check_ref
        ((TenantObjectListing.check_ref
          ⟨[((⟨0, 1⟩, 7), [((LayerName.image 0 1 0, Generation.none), 0),
                           ((LayerName.image 0 2 0, Generation.none), 0)])]⟩
          7 (LayerName.image 0 1 0) ⟨1, ⟨0, 1⟩, Generation.none⟩).2)
        7 (LayerName.image 0 1 0) ⟨1, ⟨0, 1⟩, Generation.none⟩).2).get_orphans =
      [(⟨0, 1⟩, 7, LayerName.image 0 2 0, Generation.none)] :=
  (spec_c5.1 ⟨0, 0, 1, 7⟩ (LayerName.image 0 1 0) (LayerName.image 0 2 0)
    Generation.none Generation.none 1
    ⟨[((⟨0, 1⟩, 7), [((LayerName.image 0 1 0, Generation.none), 0),
                     ((LayerName.image 0 2 0, Generation.none), 0)])]⟩
    (by decide) (by decide)).2.2

lemma list_timeline_blobs_eq (env : ScrubEnv) (p : String) (objs : List ListingObject) :
    (list_timeline_blobs env p objs =
        .ok ⟨.Relic, (scanListing env (effPrefixStr p) objs).index_part_keys, []⟩ ∧
      ((scanListing env (effPrefixStr p) objs).index_part_keys.isEmpty &&
        (scanListing env (effPrefixStr p) objs).s3_layers.isEmpty &&
        (scanListing env (effPrefixStr p) objs).initdb_archive) = true) ∨
    (list_timeline_blobs env p objs = afterScan env (scanListing env (effPrefixStr p) objs) ∧
      ((scanListing env (effPrefixStr p) objs).index_part_keys.isEmpty &&
        (scanListing env (effPrefixStr p) objs).s3_layers.isEmpty &&
        (scanListing env (effPrefixStr p) objs).initdb_archive) = false) := by
  unfold list_timeline_blobs
  by_cases hc : ((scanListing env (effPrefixStr p) objs).index_part_keys.isEmpty &&
      (scanListing env (effPrefixStr p) objs).s3_layers.isEmpty &&
      (scanListing env (effPrefixStr p) objs).initdb_archive) = true
  · left
    exact ⟨by rw [if_pos hc], hc⟩
  · right
    exact ⟨by rw [if_neg hc], by simpa using hc⟩

lemma afterScan_cases (env : ScrubEnv) (sc : ScanResult) :
    (∃ sel remaining bytes ip,
        selectIndexPart env.parseIdx sc.index_part_keys = (some sel, remaining) ∧
        env.download sel.1.key = .ok bytes ∧
        env.parseIndexPart bytes = .ok ip ∧
        afterScan env sc =
          .ok ⟨.Parsed ip sel.2 sc.s3_layers,
                remaining.filter fun k => decide (k ≠ sel.1), sc.unknown_keys⟩) ∨
    (∃ sel remaining e,
        selectIndexPart env.parseIdx sc.index_part_keys = (some sel, remaining) ∧
        env.download sel.1.key = .error e ∧
        afterScan env sc = .error ("index_part.json download: " ++ e)) ∨
    (∃ sel remaining bytes pe,
        selectIndexPart env.parseIdx sc.index_part_keys = (some sel, remaining) ∧
        env.download sel.1.key = .ok bytes ∧
        env.parseIndexPart bytes = .error pe ∧
        afterScan env sc =
          mkIncorrect (sc.errors ++ [indexBodyParseMsg pe]) sc
            (remaining.filter fun k => decide (k ≠ sel.1))) ∨
    (∃ remaining,
        selectIndexPart env.parseIdx sc.index_part_keys = (Option.none, remaining) ∧
        afterScan env sc = mkIncorrect (sc.errors ++ [noIndexMsg]) sc remaining) := by
  rcases hsel : selectIndexPart env.parseIdx sc.index_part_keys with ⟨osel, remaining⟩
  cases osel with
  | none =>
    right; right; right
    exact ⟨remaining, rfl, by simp only [afterScan, hsel]⟩
  | some sel =>
    cases hdl : env.download sel.1.key with
    | error e =>
      right; left
      exact ⟨sel, remaining, e, rfl, hdl, by simp only [afterScan, hsel, hdl]⟩
    | ok bytes =>
      cases hpi : env.parseIndexPart bytes with
      | ok ip =>
        left
        exact ⟨sel, remaining, bytes, ip, rfl, hdl, hpi,
          by simp only [afterScan, hsel, hdl, hpi]⟩
      | error pe =>
        right; right; left
        exact ⟨sel, remaining, bytes, pe, rfl, hdl, hpi,
          by simp only [afterScan, hsel, hdl, hpi]⟩

lemma mkIncorrect_ne_nil {errors : List String} {sc : ScanResult} {unused : List ListingObject}
    {rd : RemoteTimelineBlobData} {es : List String} {ls : List (LayerName × Generation)}
    (h : mkIncorrect errors sc unused = .ok rd) (hb : rd.blob_data = .Incorrect es ls) :
    es ≠ [] := by
  unfold mkIncorrect at h
  simp only [Except.ok.injEq] at h
  subst h
  simp only [BlobDataParseResult.Incorrect.injEq] at hb
  by_cases he : errors = []
  · rw [if_pos he] at hb
    rw [← hb.1]
    simp
  · rw [if_neg he] at hb
    rw [← hb.1]
    exact he

lemma mkIncorrect_fields {errors : List String} {sc : ScanResult} {unused : List ListingObject}
    {rd : RemoteTimelineBlobData} (h : mkIncorrect errors sc unused = .ok rd) :
    rd.unknown_keys = sc.unknown_keys ∧ rd.unused_index_keys = unused ∧
      ∃ es, rd.blob_data = .Incorrect es sc.s3_layers := by
  unfold mkIncorrect at h
  simp only [Except.ok.injEq] at h
  subst h
  exact ⟨rfl, rfl, _, rfl⟩

/-- C8: every `Incorrect` result returned by `list_timeline_blobs` carries
a non-empty error list, and the defensive terminal case of the
fallthrough (`mkIncorrect` with an empty error list) appends the
internal-invariant diagnostic instead of returning an empty list. -/
theorem spec_c8 :
    (∀ (env : ScrubEnv) (p : String) (objs : List ListingObject)
        (rd : RemoteTimelineBlobData) (es : List String) (ls : List (LayerName × Generation)),
      list_timeline_blobs env p objs = .ok rd → rd.blob_data = .Incorrect es ls → es ≠ []) ∧
    (∀ (sc : ScanResult) (unused : List ListingObject),
      mkIncorrect [] sc unused =
        .ok ⟨.Incorrect [unexpectedMsg] sc.s3_layers, unused, sc.unknown_keys⟩) := by
  constructor
  · intro env p objs rd es ls h hb
    rcases list_timeline_blobs_eq env p objs with ⟨heq, _⟩ | ⟨heq, _⟩
    · rw [heq] at h
      simp only [Except.ok.injEq] at h
      subst h
      simp at hb
    · rw [heq] at h
      rcases afterScan_cases env (scanListing env (effPrefixStr p) objs) with
        ⟨sel, remaining, bytes, ip, _, _, _, hres⟩ |
        ⟨sel, remaining, e, _, _, hres⟩ |
        ⟨sel, remaining, bytes, pe, _, _, _, hres⟩ |
        ⟨remaining, _, hres⟩
      · rw [hres] at h
        simp only [Except.ok.injEq] at h
        subst h
        simp at hb
      · rw [hres] at h
        simp at h
      · rw [hres] at h
        exact mkIncorrect_ne_nil h hb
      · rw [hres] at h
        exact mkIncorrect_ne_nil h hb
  · intro sc unused
    unfold mkIncorrect
    simp

/-- C8 witness: an empty listing yields an `Incorrect` result whose error
list (the missing-manifest error) is non-empty. -/
theorem spec_c8_witness : [noIndexMsg] ≠ ([] : List String) :=
  spec_c8.1
    ⟨fun _ => .error "no layer grammar", fun _ => Option.none, fun _ => Option.none,
      fun _ => .error "offline", fun _ => .error "no parse", fun _ _ => false,
      fun _ => false, [], fun _ => "", fun _ => "", fun _ => ""⟩
    "p" [] ⟨.Incorrect [noIndexMsg] [], [], []⟩ [noIndexMsg] [] (by rfl) (by rfl)

/-- Example manifest used by concrete reconciliation scenarios. -/
def ipEx : IndexPart := ⟨1, [], 0, 0, some 3⟩

/-- Example environment for concrete reconciliation scenarios: the layer
grammar rejects everything, no generation parses, the download succeeds
and the manifest body parses to `ipEx`. -/
def envC10 : ScrubEnv :=
  ⟨fun _ => .error "not a layer", fun _ => Option.none, fun _ => Option.none,
    fun _ => .ok "body", fun _ => .ok ipEx, fun _ _ => false, fun _ => false,
    [1], fun _ => "", fun _ => "", fun _ => ""⟩

/-- Example listing: one manifest object and one unparseable object. -/
def objsC10 : List ListingObject := [⟨"t/index_part.json"⟩, ⟨"t/junk"⟩]

/-- C10: when the selected manifest parses, the `Parsed` result keeps the
objects classified as unknown (in `unknown_keys`) and the raw layer set,
while the collected per-object classification error strings appear in no
field (the `Parsed` constructor has no error field); concretely, a
listing with an unparseable key still produces a `Parsed` result whose
fields carry only the offending object, not the recorded error. -/
theorem spec_c10 :
    (∀ (env : ScrubEnv) (p : String) (objs : List ListingObject)
        (rd : RemoteTimelineBlobData) (ip : IndexPart) (g : Generation)
        (ls : List (LayerName × Generation)),
      list_timeline_blobs env p objs = .ok rd →
      rd.blob_data = .Parsed ip g ls →
      rd.unknown_keys = (scanListing env (effPrefixStr p) objs).unknown_keys ∧
      ls = (scanListing env (effPrefixStr p) objs).s3_layers) ∧
    (scanListing envC10 (effPrefixStr "t/") objsC10).errors =
      [notALayerMsg "t/junk" "not a layer"] ∧
    list_timeline_blobs envC10 "t/" objsC10 =
      .ok ⟨.Parsed ipEx Generation.none [], [], [⟨"t/junk"⟩]⟩ := by
  refine ⟨?_, by rfl, by rfl⟩
  intro env p objs rd ip g ls h hb
  rcases list_timeline_blobs_eq env p objs with ⟨heq, _⟩ | ⟨heq, _⟩
  · rw [heq] at h
    simp only [Except.ok.injEq] at h
    subst h
    simp at hb
  · rw [heq] at h
    rcases afterScan_cases env (scanListing env (effPrefixStr p) objs) with
      ⟨sel, remaining, bytes, ip', _, _, _, hres⟩ |
      ⟨sel, remaining, e, _, _, hres⟩ |
      ⟨sel, remaining, bytes, pe, _, _, _, hres⟩ |
      ⟨remaining, _, hres⟩
    · rw [hres] at h
      simp only [Except.ok.injEq] at h
      subst h
      simp only [BlobDataParseResult.Parsed.injEq] at hb
      exact ⟨rfl, hb.2.2.symm⟩
    · rw [hres] at h
      simp at h
    · rw [hres] at h
      obtain ⟨_, _, es, hinc⟩ := mkIncorrect_fields h
      rw [hb] at hinc
      simp at hinc
    · rw [hres] at h
      obtain ⟨_, _, es, hinc⟩ := mkIncorrect_fields h
      rw [hb] at hinc
      simp at hinc

/-- C10 witness: the general clause of `spec_c10` instantiated at the
concrete listing with an unparseable key. -/
theorem spec_c10_witness :
    (⟨.Parsed ipEx Generation.none [], [],
        [(⟨"t/junk"⟩ : ListingObject)]⟩ : RemoteTimelineBlobData).unknown_keys =
      (scanListing envC10 (effPrefixStr "t/") objsC10).unknown_keys ∧
    ([] : List (LayerName × Generation)) =
      (scanListing envC10 (effPrefixStr "t/") objsC10).s3_layers :=
  spec_c10.1 envC10 "t/" objsC10 ⟨.Parsed ipEx Generation.none [], [], [⟨"t/junk"⟩]⟩
    ipEx Generation.none [] (by rfl) (by rfl)

lemma genLe_refl (a : Generation) : Generation.le_b a a = true := by
  cases a <;> simp [Generation.le_b]

lemma genLe_total (a b : Generation) :
    Generation.le_b a b = true ∨ Generation.le_b b a = true := by
  cases a <;> cases b <;> simp [Generation.le_b]
  omega

lemma genLe_trans {a b c : Generation} (h1 : Generation.le_b a b = true)
    (h2 : Generation.le_b b c = true) : Generation.le_b a c = true := by
  cases a <;> cases b <;> cases c <;> simp [Generation.le_b] at *
  omega

lemma foldl_maxStep_isSome :
    ∀ (l : List (ListingObject × Generation)) (y : ListingObject × Generation),
      (l.foldl maxStep (some y)).isSome = true := by
  intro l
  induction l with
  | nil => intro y; rfl
  | cons x xs ih =>
    intro y
    simp only [List.foldl_cons, maxStep]
    by_cases h : Generation.le_b y.2 x.2 = true
    · rw [if_pos h]; exact ih x
    · rw [if_neg h]; exact ih y

lemma foldl_maxStep_mem :
    ∀ (l : List (ListingObject × Generation)) (acc : Option (ListingObject × Generation))
      (m : ListingObject × Generation),
      l.foldl maxStep acc = some m → acc = some m ∨ m ∈ l := by
  intro l
  induction l with
  | nil => intro acc m h; exact Or.inl h
  | cons x xs ih =>
    intro acc m h
    rcases ih (maxStep acc x) m h with hstep | hmem
    · cases acc with
      | none =>
        simp only [maxStep, Option.some.injEq] at hstep
        exact Or.inr (hstep ▸ List.mem_cons_self x xs)
      | some y =>
        simp only [maxStep] at hstep
        by_cases hle : Generation.le_b y.2 x.2 = true
        · rw [if_pos hle] at hstep
          exact Or.inr ((Option.some_inj.mp hstep) ▸ List.mem_cons_self x xs)
        · rw [if_neg hle] at hstep
          exact Or.inl hstep
    · exact Or.inr (List.mem_cons_of_mem _ hmem)

lemma foldl_maxStep_ge :
    ∀ (l : List (ListingObject × Generation)) (acc : Option (ListingObject × Generation))
      (m : ListingObject × Generation),
      l.foldl maxStep acc = some m →
        (∀ x ∈ l, Generation.le_b x.2 m.2 = true) ∧
        (∀ y, acc = some y → Generation.le_b y.2 m.2 = true) := by
  intro l
  induction l with
  | nil =>
    intro acc m h
    refine ⟨by simp, ?_⟩
    intro y hy
    rw [hy] at h
    rw [Option.some_inj.mp h]
    exact genLe_refl _
  | cons x xs ih =>
    intro acc m h
    obtain ⟨hxs, hacc⟩ := ih (maxStep acc x) m h
    have hx : Generation.le_b x.2 m.2 = true := by
      cases acc with
      | none => exact hacc x rfl
      | some y =>
        simp only [maxStep] at hacc
        by_cases hle : Generation.le_b y.2 x.2 = true
        · rw [if_pos hle] at hacc
          exact hacc x rfl
        · rw [if_neg hle] at hacc
          rcases genLe_total x.2 y.2 with h1 | h1
          · exact genLe_trans h1 (hacc y rfl)
          · exact absurd h1 hle
    refine ⟨?_, ?_⟩
    · intro z hz
      rcases List.mem_cons.mp hz with rfl | hz
      · exact hx
      · exact hxs z hz
    · intro y hy
      subst hy
      simp only [maxStep] at hacc
      by_cases hle : Generation.le_b y.2 x.2 = true
      · rw [if_pos hle] at hacc
        exact genLe_trans hle (hacc x rfl)
      · rw [if_neg hle] at hacc
        exact hacc y rfl

lemma mem_of_getLast_opt {α : Type} :
    ∀ {l : List α} {a : α}, l.getLast? = some a → a ∈ l := by
  intro l
  induction l with
  | nil => intro a h; simp at h
  | cons x xs ih =>
    intro a h
    cases xs with
    | nil =>
      simp only [List.getLast?_singleton, Option.some.injEq] at h
      exact h ▸ List.mem_singleton_self x
    | cons y ys =>
      rw [List.getLast?_cons_cons] at h
      exact List.mem_cons_of_mem _ (ih h)

lemma mem_dropLast_of_ne_getLast {α : Type} :
    ∀ {l : List α} {k c : α}, l.getLast? = some k → c ∈ l → c ≠ k → c ∈ l.dropLast := by
  intro l
  induction l with
  | nil => intro k c h; simp at h
  | cons x xs ih =>
    intro k c hlast hc hne
    cases xs with
    | nil =>
      simp only [List.getLast?_singleton, Option.some.injEq] at hlast
      rcases List.mem_singleton.mp hc with rfl
      exact absurd hlast hne
    | cons y ys =>
      rw [List.getLast?_cons_cons] at hlast
      rcases List.mem_cons.mp hc with rfl | hc
      · simp [List.dropLast_cons_of_ne_nil]
      · have := ih hlast hc hne
        simp only [List.dropLast_cons_of_ne_nil (List.cons_ne_nil y ys)]
        exact List.mem_cons_of_mem _ this

lemma selectIndexPart_mem_remaining {parseIdx : String → Option Generation}
    {keys remaining : List ListingObject} {sel : ListingObject × Generation}
    (h : selectIndexPart parseIdx keys = (some sel, remaining)) :
    ∀ c ∈ keys, c ≠ sel.1 → c ∈ remaining := by
  unfold selectIndexPart at h
  cases hmax : maxByGen (parsedCandidates parseIdx keys) with
  | some kg =>
    rw [hmax] at h
    simp only [Prod.mk.injEq] at h
    intro c hc _
    exact h.2 ▸ hc
  | none =>
    rw [hmax] at h
    cases hlast : keys.getLast? with
    | some k =>
      rw [hlast] at h
      simp only [Prod.mk.injEq, Option.some.injEq] at h
      intro c hc hne
      rw [← h.2]
      apply mem_dropLast_of_ne_getLast hlast hc
      rw [← h.1] at hne
      exact hne
    | none =>
      rw [hlast] at h
      simp at h

lemma getLast_opt_cons_isSome {α : Type} (x : α) :
    ∀ (xs : List α), ((x :: xs).getLast?).isSome = true := by
  intro xs
  induction xs generalizing x with
  | nil => rfl
  | cons y ys ih =>
    rw [List.getLast?_cons_cons]
    exact ih y

/-- C4: manifest selection in `list_timeline_blobs`.  (a) When some
candidate's basename parses with a generation, the selection returns a
parsed candidate of maximal generation.  (b) When no candidate parses but
candidates exist, a single candidate is selected with
`Generation::none()`.  (c) Every candidate other than the selected object
ends up in `unused_index_keys` of a returned (non-`Relic`) result.
(d) With zero candidates outside the `Relic` case, the result is
`Incorrect` and records the missing-manifest error. -/
theorem spec_c4 :
    (∀ (parseIdx : String → Option Generation) (keys : List ListingObject)
        (k : ListingObject) (g : Generation),
      (k, g) ∈ parsedCandidates parseIdx keys →
      ∃ sel, (selectIndexPart parseIdx keys).1 = some sel ∧
        sel ∈ parsedCandidates parseIdx keys ∧
        ∀ x ∈ parsedCandidates parseIdx keys, Generation.le_b x.2 sel.2 = true) ∧
    (∀ (parseIdx : String → Option Generation) (keys : List ListingObject),
      parsedCandidates parseIdx keys = [] → keys ≠ [] →
      ∃ k, (selectIndexPart parseIdx keys).1 = some (k, Generation.none) ∧ k ∈ keys) ∧
    (∀ (env : ScrubEnv) (p : String) (objs : List ListingObject)
        (rd : RemoteTimelineBlobData) (sel : ListingObject × Generation)
        (remaining : List ListingObject),
      list_timeline_blobs env p objs = .ok rd →
      rd.blob_data ≠ .Relic →
      selectIndexPart env.parseIdx
          (scanListing env (effPrefixStr p) objs).index_part_keys = (some sel, remaining) →
      ∀ c ∈ (scanListing env (effPrefixStr p) objs).index_part_keys,
        c ≠ sel.1 → c ∈ rd.unused_index_keys) ∧
    (∀ (env : ScrubEnv) (p : String) (objs : List ListingObject),
      (scanListing env (effPrefixStr p) objs).index_part_keys = [] →
      ((scanListing env (effPrefixStr p) objs).s3_layers.isEmpty &&
        (scanListing env (effPrefixStr p) objs).initdb_archive) = false →
      list_timeline_blobs env p objs =
        .ok ⟨.Incorrect ((scanListing env (effPrefixStr p) objs).errors ++ [noIndexMsg])
              (scanListing env (effPrefixStr p) objs).s3_layers,
            [], (scanListing env (effPrefixStr p) objs).unknown_keys⟩ ∧
      noIndexMsg ∈ (scanListing env (effPrefixStr p) objs).errors ++ [noIndexMsg]) := by
  refine ⟨?_, ?_, ?_, ?_⟩
  · intro parseIdx keys k g hmem
    cases hpc : parsedCandidates parseIdx keys with
    | nil => rw [hpc] at hmem; simp at hmem
    | cons c cs =>
      have hs : (maxByGen (parsedCandidates parseIdx keys)).isSome = true := by
        rw [hpc]
        unfold maxByGen
        simp only [List.foldl_cons]
        have hc : maxStep Option.none c = some c := rfl
        rw [hc]
        exact foldl_maxStep_isSome cs c
      obtain ⟨sel, hsel⟩ := Option.isSome_iff_exists.mp hs
      refine ⟨sel, by simp only [selectIndexPart, hsel], ?_, ?_⟩
      · rcases foldl_maxStep_mem _ _ _ hsel with hnone | hm
        · exact absurd hnone (by simp)
        · rw [hpc] at hm
          exact hm
      · have hge := (foldl_maxStep_ge _ _ _ hsel).1
        rw [hpc] at hge
        exact hge
  · intro parseIdx keys hpc hne
    cases keys with
    | nil => exact absurd rfl hne
    | cons x xs =>
      obtain ⟨k, hlast⟩ := Option.isSome_iff_exists.mp (getLast_opt_cons_isSome x xs)
      have hmax : maxByGen (parsedCandidates parseIdx (x :: xs)) = Option.none := by
        rw [hpc]; rfl
      refine ⟨k, by simp only [selectIndexPart, hmax, hlast], ?_⟩
      exact mem_of_getLast_opt hlast
  · intro env p objs rd sel remaining h hnr hsel
    rcases list_timeline_blobs_eq env p objs with ⟨heq, _⟩ | ⟨heq, _⟩
    · rw [heq] at h
      simp only [Except.ok.injEq] at h
      subst h
      exact absurd rfl hnr
    · rw [heq] at h
      rcases afterScan_cases env (scanListing env (effPrefixStr p) objs) with
        ⟨sel', remaining', bytes, ip', hsel', _, _, hres⟩ |
        ⟨sel', remaining', e, hsel', _, hres⟩ |
        ⟨sel', remaining', bytes, pe, hsel', _, _, hres⟩ |
        ⟨remaining', hsel', hres⟩
      · rw [hsel] at hsel'
        simp only [Prod.mk.injEq, Option.some.injEq] at hsel'
        obtain ⟨rfl, rfl⟩ := hsel'
        rw [hres] at h
        simp only [Except.ok.injEq] at h
        subst h
        intro c hc hne
        exact List.mem_filter.mpr
          ⟨selectIndexPart_mem_remaining hsel c hc hne, decide_eq_true hne⟩
      · rw [hres] at h
        simp at h
      · rw [hsel] at hsel'
        simp only [Prod.mk.injEq, Option.some.injEq] at hsel'
        obtain ⟨rfl, rfl⟩ := hsel'
        rw [hres] at h
        obtain ⟨_, hunused, _⟩ := mkIncorrect_fields h
        rw [hunused]
        intro c hc hne
        exact List.mem_filter.mpr
          ⟨selectIndexPart_mem_remaining hsel c hc hne, decide_eq_true hne⟩
      · rw [hsel] at hsel'
        simp at hsel'
  · intro env p objs h1 h2
    have hguard : ((scanListing env (effPrefixStr p) objs).index_part_keys.isEmpty &&
        (scanListing env (effPrefixStr p) objs).s3_layers.isEmpty &&
        (scanListing env (effPrefixStr p) objs).initdb_archive) = false := by
      rw [h1]
      simpa using h2
    rcases list_timeline_blobs_eq env p objs with ⟨_, hg⟩ | ⟨heq, _⟩
    · rw [hguard] at hg
      exact absurd hg (by simp)
    · have hsel : selectIndexPart env.parseIdx
          (scanListing env (effPrefixStr p) objs).index_part_keys = (Option.none, []) := by
        rw [h1]; rfl
      refine ⟨?_, List.mem_append_right _ (List.mem_singleton_self _)⟩
      rw [heq]
      simp only [afterScan, hsel]
      unfold mkIncorrect
      rw [if_neg (by simp)]

/-- Example index-path parser recognizing two generation-suffixed manifest
names. -/
def parseIdxEx : String → Option Generation := fun b =>
  if b = "index_part.json-1" then some (Generation.valid 1)
  else if b = "index_part.json-2" then some (Generation.valid 2)
  else Option.none

/-- Example manifest candidates with generations none, 1 and 2. -/
def keysEx : List ListingObject :=
  [⟨"t/index_part.json"⟩, ⟨"t/index_part.json-1"⟩, ⟨"t/index_part.json-2"⟩]

/-- C4 witness: among candidates with generations `{none, 1, 2}` the
selection clause of `spec_c4` applies and yields a maximal parsed
candidate. -/
theorem spec_c4_witness :
    ∃ sel, (selectIndexPart parseIdxEx keysEx).1 = some sel ∧
      sel ∈ parsedCandidates parseIdxEx keysEx ∧
      ∀ x ∈ parsedCandidates parseIdxEx keysEx, Generation.le_b x.2 sel.2 = true :=
  spec_c4.1 parseIdxEx keysEx ⟨"t/index_part.json-1"⟩ (Generation.valid 1) (by decide)

/-- Among candidates with generations `{none, 1, 2}`, the selection picks
generation 2, as the spec's concrete example states. -/
lemma selectIndexPart_picks_two : (selectIndexPart parseIdxEx keysEx).1 =
    some (⟨"t/index_part.json-2"⟩, Generation.valid 2) := by decide

lemma checkLayerStep_shape (env : ScrubEnv) (id : TenantShardTimelineId)
    (tob : TenantObjectListing) (lm : LayerName × LayerFileMetadata) :
    ∃ e w to', ∀ s : TimelineAnalysis,
      checkLayerStep env id (s, tob) lm =
        (⟨s.errors ++ e, s.warnings ++ w, s.garbage_keys⟩, to') := by
  obtain ⟨layer, metadata⟩ := lm
  rcases hcr : tob.check_ref id.timeline_id layer metadata with ⟨found, to₁⟩
  refine ⟨(if metadata.file_size = 0 then [zeroSizeMsg env layer] else []) ++
      (if found = false ∧ env.headOk layer metadata = false ∧ env.isL0 layer = false
        then [missingLayerMsg env layer metadata (env.isL0 layer)] else []),
      (if found = false ∧ env.headOk layer metadata = false ∧ env.isL0 layer = true
        then [missingLayerMsg env layer metadata (env.isL0 layer)] else []),
      to₁, ?_⟩
  intro s
  unfold checkLayerStep
  dsimp only
  rw [hcr]
  by_cases h0 : metadata.file_size = 0 <;>
    cases hhv : env.headOk layer metadata <;>
    cases hlv : env.isL0 layer <;>
    cases found <;>
    simp [h0, hhv, hlv]

lemma foldl_checkLayer_shape (env : ScrubEnv) (id : TenantShardTimelineId) :
    ∀ (ls : List (LayerName × LayerFileMetadata)) (tob : TenantObjectListing),
      ∃ E W to', ∀ s : TimelineAnalysis,
        ls.foldl (checkLayerStep env id) (s, tob) =
          (⟨s.errors ++ E, s.warnings ++ W, s.garbage_keys⟩, to') := by
  intro ls
  induction ls with
  | nil =>
    intro tob
    exact ⟨[], [], tob, fun s => by cases s; simp⟩
  | cons lm ls ih =>
    intro tob
    obtain ⟨e, w, to₁, hstep⟩ := checkLayerStep_shape env id tob lm
    obtain ⟨E, W, to', hfold⟩ := ih to₁
    refine ⟨e ++ E, w ++ W, to', ?_⟩
    intro s
    simp only [List.foldl_cons, hstep s]
    rw [hfold ⟨s.errors ++ e, s.warnings ++ w, s.garbage_keys⟩]
    simp [List.append_assoc]

lemma analyzeS3Data_errors (env : ScrubEnv) (id : TenantShardTimelineId)
    (tob : TenantObjectListing) (sd : Option RemoteTimelineBlobData) :
    ∃ D, ∀ r : TimelineAnalysis,
      (analyzeS3Data env id tob r sd).1.errors = r.errors ++ D := by
  cases sd with
  | none => exact ⟨[noDataMsg], fun r => by simp [analyzeS3Data]⟩
  | some d =>
    cases hbd : d.blob_data with
    | Relic => exact ⟨[], fun r => by simp [analyzeS3Data, hbd]⟩
    | Incorrect es ls =>
      exact ⟨es.map (fun e => "parse error: " ++ e), fun r => by simp [analyzeS3Data, hbd]⟩
    | Parsed ip g l =>
      obtain ⟨E, W, to', hfold⟩ := foldl_checkLayer_shape env id ip.layer_metadata tob
      refine ⟨(if ¬ env.knownVersions.contains ip.version then [badVersionMsg ip.version]
            else []) ++
          (if ip.disk_consistent_lsn ≠ ip.duplicated_disk_consistent_lsn
            then [lsnMismatchMsg ip.disk_consistent_lsn ip.duplicated_disk_consistent_lsn]
            else []) ++
          (if ip.layer_metadata = [] then
            (if ip.ancestor_timeline = Option.none then [noLayersMsg] else []) else []) ++
          (match check_valid_layermap ip.layer_metadata with
            | some err => [invalidLayermapMsg err]
            | Option.none => []) ++ E, ?_⟩
      intro r
      simp only [analyzeS3Data, hbd]
      cases hcv : check_valid_layermap ip.layer_metadata with
      | none =>
        rw [hfold]
        dsimp only
        simp only [apply_ite TimelineAnalysis.errors]
        split_ifs <;> simp [List.append_assoc]
      | some err =>
        rw [hfold]
        dsimp only
        simp only [apply_ite TimelineAnalysis.errors]
        split_ifs <;> simp [List.append_assoc]

lemma checkLayerStep_garbage (env : ScrubEnv) (id : TenantShardTimelineId)
    (acc : TimelineAnalysis × TenantObjectListing) (lm : LayerName × LayerFileMetadata) :
    (checkLayerStep env id acc lm).1.garbage_keys = acc.1.garbage_keys := by
  obtain ⟨s, tob⟩ := acc
  obtain ⟨layer, metadata⟩ := lm
  unfold checkLayerStep
  dsimp only
  split_ifs <;> rfl

lemma foldl_checkLayer_garbage (env : ScrubEnv) (id : TenantShardTimelineId) :
    ∀ (ls : List (LayerName × LayerFileMetadata)) (acc : TimelineAnalysis × TenantObjectListing),
      ((ls.foldl (checkLayerStep env id) acc).1).garbage_keys = acc.1.garbage_keys := by
  intro ls
  induction ls with
  | nil => intro acc; rfl
  | cons lm ls ih =>
    intro acc
    simp only [List.foldl_cons]
    rw [ih]
    exact checkLayerStep_garbage env id acc lm

lemma analyzeS3Data_garbage (env : ScrubEnv) (id : TenantShardTimelineId)
    (tob : TenantObjectListing) (r : TimelineAnalysis) (sd : Option RemoteTimelineBlobData) :
    (analyzeS3Data env id tob r sd).1.garbage_keys =
      r.garbage_keys ++
        (match sd with
          | some d => d.unknown_keys.map fun k => k.key
          | Option.none => []) := by
  cases sd with
  | none => simp [analyzeS3Data]
  | some d =>
    cases hbd : d.blob_data with
    | Relic => simp [analyzeS3Data, hbd]
    | Incorrect es ls => simp [analyzeS3Data, hbd]
    | Parsed ip g l =>
      simp only [analyzeS3Data, hbd]
      rw [foldl_checkLayer_garbage]
      cases hcv : check_valid_layermap ip.layer_metadata <;>
        split_ifs <;> simp

/-- C2: a branch-inconsistency error appears in the verdict exactly when
an active-branch record from the prior snapshot exists; the single added
message is determined by the console lookup, whose two possible outcomes
are the two disagreement forms (branch found when expected deleted /
branch missing).  With no prior record, the error list is exactly the one
produced from the reconciliation data — no branch error is added. -/
theorem spec_c2 (env : ScrubEnv) (id : TenantShardTimelineId)
    (tenant_objects : TenantObjectListing) (s3_active_branch console_branch : Option BranchData)
    (s3_data : Option RemoteTimelineBlobData) :
    (branch_cleanup_and_check_errors env id tenant_objects s3_active_branch console_branch
        s3_data).1.errors =
      (match s3_active_branch with
        | some b => [branchInconsistencyMsg b console_branch]
        | Option.none => []) ++
      (branch_cleanup_and_check_errors env id tenant_objects Option.none console_branch
        s3_data).1.errors := by
  obtain ⟨D, hD⟩ := analyzeS3Data_errors env id tenant_objects s3_data
  cases s3_active_branch with
  | none =>
    simp only [branch_cleanup_and_check_errors]
    rw [hD]
    simp
  | some b =>
    simp only [branch_cleanup_and_check_errors]
    rw [hD, hD]
    rfl

/-- C1 counterexample: a listing holding only the initdb archive and one
unparseable key.  The key is classified unknown during the listing, the
reconciliation outcome is `Relic`, and the resulting analysis surfaces no
garbage key at all — refuting the claim that unknown keys are surfaced in
the `Relic` case. -/
theorem spec_c1_counterexample :
    (scanListing envC10 (effPrefixStr "t/")
        [⟨"t/initdb.tar.zst"⟩, ⟨"t/junk"⟩]).unknown_keys = [⟨"t/junk"⟩] ∧
    list_timeline_blobs envC10 "t/" [⟨"t/initdb.tar.zst"⟩, ⟨"t/junk"⟩] =
      .ok ⟨.Relic, [], []⟩ ∧
    (branch_cleanup_and_check_errors envC10 ⟨0, 0, 1, 7⟩ ⟨[]⟩ Option.none Option.none
        (some ⟨.Relic, [], []⟩)).1.garbage_keys = [] :=
  ⟨by rfl, by rfl, by rfl⟩

/-- C1 (amended): the analyzer surfaces every unknown key carried by the
reconciliation result as a garbage-key candidate regardless of the
outcome branch, and the reconciliation result carries exactly the keys
classified unknown during the listing whenever the outcome is not
`Relic`; in the `Relic` outcome the result's unknown-key list is empty,
so keys classified unknown during the listing are not surfaced there. -/
theorem spec_c1_amended :
    (∀ (env : ScrubEnv) (id : TenantShardTimelineId) (tenant_objects : TenantObjectListing)
        (active console : Option BranchData) (sd : RemoteTimelineBlobData) (o : ListingObject),
      o ∈ sd.unknown_keys →
      o.key ∈ (branch_cleanup_and_check_errors env id tenant_objects active console
        (some sd)).1.garbage_keys) ∧
    (∀ (env : ScrubEnv) (p : String) (objs : List ListingObject) (rd : RemoteTimelineBlobData),
      list_timeline_blobs env p objs = .ok rd → rd.blob_data ≠ .Relic →
      rd.unknown_keys = (scanListing env (effPrefixStr p) objs).unknown_keys) ∧
    (∀ (env : ScrubEnv) (p : String) (objs : List ListingObject) (rd : RemoteTimelineBlobData),
      list_timeline_blobs env p objs = .ok rd → rd.blob_data = .Relic →
      rd.unknown_keys = []) := by
  refine ⟨?_, ?_, ?_⟩
  · intro env id tenant_objects active console sd o hmem
    unfold branch_cleanup_and_check_errors
    rw [analyzeS3Data_garbage]
    apply List.mem_append_right
    exact List.mem_map_of_mem _ hmem
  · intro env p objs rd h hnr
    rcases list_timeline_blobs_eq env p objs with ⟨heq, _⟩ | ⟨heq, _⟩
    · rw [heq] at h
      simp only [Except.ok.injEq] at h
      subst h
      exact absurd rfl hnr
    · rw [heq] at h
      rcases afterScan_cases env (scanListing env (effPrefixStr p) objs) with
        ⟨sel, remaining, bytes, ip, _, _, _, hres⟩ |
        ⟨sel, remaining, e, _, _, hres⟩ |
        ⟨sel, remaining, bytes, pe, _, _, _, hres⟩ |
        ⟨remaining, _, hres⟩
      · rw [hres] at h
        simp only [Except.ok.injEq] at h
        subst h
        rfl
      · rw [hres] at h
        simp at h
      · rw [hres] at h
        exact (mkIncorrect_fields h).1
      · rw [hres] at h
        exact (mkIncorrect_fields h).1
  · intro env p objs rd h hr
    rcases list_timeline_blobs_eq env p objs with ⟨heq, _⟩ | ⟨heq, _⟩
    · rw [heq] at h
      simp only [Except.ok.injEq] at h
      subst h
      rfl
    · rw [heq] at h
      rcases afterScan_cases env (scanListing env (effPrefixStr p) objs) with
        ⟨sel, remaining, bytes, ip, _, _, _, hres⟩ |
        ⟨sel, remaining, e, _, _, hres⟩ |
        ⟨sel, remaining, bytes, pe, _, _, _, hres⟩ |
        ⟨remaining, _, hres⟩
      · rw [hres] at h
        simp only [Except.ok.injEq] at h
        subst h
        simp at hr
      · rw [hres] at h
        simp at h
      · rw [hres] at h
        obtain ⟨_, _, es, hinc⟩ := mkIncorrect_fields h
        rw [hr] at hinc
        simp at hinc
      · rw [hres] at h
        obtain ⟨_, _, es, hinc⟩ := mkIncorrect_fields h
        rw [hr] at hinc
        simp at hinc

/-- C1 witness: the surfacing clause of the amended claim at a concrete
`Incorrect` reconciliation result carrying one unknown key. -/
theorem spec_c1_witness :
    "t/junk" ∈ (branch_cleanup_and_check_errors envC10 ⟨0, 0, 1, 7⟩ ⟨[]⟩ Option.none
      Option.none (some ⟨.Incorrect [noIndexMsg] [], [], [⟨"t/junk"⟩]⟩)).1.garbage_keys :=
  spec_c1_amended.1 envC10 ⟨0, 0, 1, 7⟩ ⟨[]⟩ Option.none Option.none
    ⟨.Incorrect [noIndexMsg] [], [], [⟨"t/junk"⟩]⟩ ⟨"t/junk"⟩ (by decide)
